import Mathlib

/-!
# sshtokenca `util/openidc.go`: the OpenID Connect client adapter

A shallow embedding of `util.OpenIDC` (methods `Init`, `CodeToIDToken`,
`AuthCodeURL`) together with models of the few library functions the adapter
relies on (`strings.Split`, `regexp.MatchString`, `oauth2.Config.AuthCodeURL`).
Go strings are modelled as Lean strings: sequences of characters.  Network-facing
library calls (`oidc.NewProvider`, `oauth2.Config.Exchange`,
`oidc.IDTokenVerifier.Verify`) are fields of an environment `Env`, and every
method records the library calls it makes.
-/

namespace Util

/-! ## Go `strings`: `Count`, `Index`, `Split` for a one-character separator -/

/-- Go `strings.Count(s, sep)` for a one-character `sep`: number of occurrences. -/
def Count : List Char → Char → Nat
  | [], _ => 0
  | c :: cs, sep => if c = sep then Count cs sep + 1 else Count cs sep

/-- Go `strings.Index(s, sep)` for a one-character `sep`: position of the first
occurrence, `none` standing for the result `-1`. -/
def Index : List Char → Char → Option Nat
  | [], _ => none
  | c :: cs, sep => if c = sep then some 0 else (Index cs sep).map (· + 1)

/-- The loop of Go `strings.genSplit` (with `sepSave = 0`): at most `k` cuts, each
at the first occurrence of the separator; the remainder is the last piece. -/
def genSplitLoop (sep : Char) : Nat → List Char → List (List Char)
  | 0, s => [s]
  | k + 1, s =>
    match Index s sep with
    | none => [s]
    | some m => s.take m :: genSplitLoop sep k (s.drop (m + 1))

/-- Go `strings.Split(s, sep)` for a one-character separator `sep`:
`genSplit(s, sep, 0, -1)`, which allots `Count(s, sep) + 1` pieces. -/
def Split (s : String) (sep : Char) : List String :=
  (genSplitLoop sep (Count s.data sep) s.data).map String.mk

/-! ## Go `regexp`: syntax trees and matching -/

/-- Regular expression syntax trees, after the operators of Go `regexp/syntax`.
A character class is a list of inclusive code point ranges, possibly negated. -/
inductive Regexp where
  | noMatch : Regexp
  | emptyMatch : Regexp
  | literal (c : Char) : Regexp
  | charClass (negated : Bool) (ranges : List (Nat × Nat)) : Regexp
  | concat (a b : Regexp) : Regexp
  | alternate (a b : Regexp) : Regexp
  | star (a : Regexp) : Regexp

namespace Regexp

/-- Membership of a character in a (possibly negated) list of code point ranges. -/
def inClass (negated : Bool) (ranges : List (Nat × Nat)) (c : Char) : Bool :=
  (ranges.any fun r => decide (r.1 ≤ c.toNat) && decide (c.toNat ≤ r.2)) != negated

/-- One or more repetitions: `x+` is `xx*`. -/
def plus (a : Regexp) : Regexp := concat a (star a)

/-- The concatenation of the literals of a list of characters. -/
def litChars : List Char → Regexp
  | [] => emptyMatch
  | c :: cs => concat (literal c) (litChars cs)

/-- The concatenation of the literals of a string. -/
def lit (s : String) : Regexp :=
  litChars s.data

/-- Whether the expression matches the empty string. -/
def nullable : Regexp → Bool
  | noMatch => false
  | emptyMatch => true
  | literal _ => false
  | charClass _ _ => false
  | concat a b => a.nullable && b.nullable
  | alternate a b => a.nullable || b.nullable
  | star _ => true

/-- Brzozowski derivative: what remains to be matched after reading `c`. -/
def deriv : Regexp → Char → Regexp
  | noMatch, _ => noMatch
  | emptyMatch, _ => noMatch
  | literal d, c => if c = d then emptyMatch else noMatch
  | charClass n rs, c => if inClass n rs c then emptyMatch else noMatch
  | concat a b, c =>
    if a.nullable then alternate (concat (a.deriv c) b) (b.deriv c)
    else concat (a.deriv c) b
  | alternate a b, c => alternate (a.deriv c) (b.deriv c)
  | star a, c => concat (a.deriv c) (star a)

/-- Whether the expression matches the whole of `s`. -/
def rmatch : Regexp → List Char → Bool
  | r, [] => r.nullable
  | r, c :: cs => (r.deriv c).rmatch cs

end Regexp

/-- A compiled pattern (Go `*regexp.Regexp`): the body of the pattern, and whether
it is anchored by a leading `\A` and by a trailing `\z`. -/
structure CompiledRegexp where
  anchorStart : Bool
  anchorEnd : Bool
  body : Regexp

/-- Go `(*Regexp).MatchString`: whether some substring of `s` matches the body,
the substring starting at the beginning of `s` for a pattern anchored by `\A` and
ending at the end of `s` for one anchored by `\z`. -/
def CompiledRegexp.MatchString (re : CompiledRegexp) (s : String) : Bool :=
  (if re.anchorStart then [s.data] else s.data.tails).any fun t =>
    (if re.anchorEnd then [t] else t.inits).any fun u => re.body.rmatch u

/-- Perl class `\d` of Go `regexp/syntax`: `[0-9]`. -/
def perlDigit : List (Nat × Nat) := [(0x30, 0x39)]

/-- Perl class `\s` of Go `regexp/syntax`: `[\t\n\f\r ]`. -/
def perlSpace : List (Nat × Nat) := [(0x9, 0xa), (0xc, 0xd), (0x20, 0x20)]

/-- The sub-pattern `127[.]0[.]0[.]1`. -/
def loopbackAddress : Regexp :=
  let dot := Regexp.charClass false [(0x2e, 0x2e)]
  Regexp.concat (Regexp.lit "127") (Regexp.concat dot (Regexp.concat (Regexp.lit "0")
    (Regexp.concat dot (Regexp.concat (Regexp.lit "0") (Regexp.concat dot (Regexp.lit "1"))))))

/-- The pattern compiled in `Init`, source line 46:
`\Ahttp://(localhost|127[.]0[.]0[.]1):\d+/\S*\z`. -/
def validRedirectURIPattern : CompiledRegexp :=
  { anchorStart := true
    anchorEnd := true
    body :=
      Regexp.concat (Regexp.lit "http://")
        (Regexp.concat (Regexp.alternate (Regexp.lit "localhost") loopbackAddress)
          (Regexp.concat (Regexp.lit ":")
            (Regexp.concat (Regexp.plus (Regexp.charClass false perlDigit))
              (Regexp.concat (Regexp.lit "/")
                (Regexp.star (Regexp.charClass true perlSpace)))))) }

/-! ## Library data: `oauth2` and `go-oidc` -/

/-- Go `error` values: an error and its message. -/
structure GoError where
  msg : String
  deriving DecidableEq

/-- Go `context.Context`; the adapter only hands it on to the libraries. -/
structure Context where
  id : Nat
  deriving DecidableEq

/-- Go slices: `none` is the nil slice. -/
abbrev Slice (α : Type) := Option (List α)

/-- Go `len` on a slice. -/
def len {α : Type} : Slice α → Nat
  | none => 0
  | some xs => xs.length

/-- Go `strings.Join`. -/
def Join : List String → String → String
  | [], _ => ""
  | [a], _ => a
  | a :: b :: rest, sep => a ++ sep ++ Join (b :: rest) sep

/-- Go `oauth2.Endpoint`. -/
structure Endpoint where
  AuthURL : String
  TokenURL : String
  deriving DecidableEq

/-- Go `oauth2.Config`. -/
structure OAuth2Config where
  ClientID : String
  ClientSecret : String
  Endpoint : Endpoint
  RedirectURL : String
  Scopes : Slice String
  deriving DecidableEq

/-- Go `oauth2.AuthCodeOption`, as built by `oauth2.SetAuthURLParam(key, value)`. -/
structure AuthCodeOption where
  key : String
  value : String
  deriving DecidableEq

/-- Go `oauth2.SetAuthURLParam`. -/
def SetAuthURLParam (key value : String) : AuthCodeOption := { key := key, value := value }

/-- Go `interface{}` values found among the extra fields of a token response. -/
inductive Iface where
  | nil : Iface
  | str (s : String) : Iface
  | num (n : Int) : Iface
  | bool (b : Bool) : Iface
  deriving DecidableEq

/-- Go type assertion `v.(string)` in its two-result form. -/
def Iface.asString : Iface → String × Bool
  | Iface.str s => (s, true)
  | _ => ("", false)

/-- Go `oauth2.Token`; `raw` holds the extension fields of the token response. -/
structure Token where
  AccessToken : String
  TokenType : String
  RefreshToken : String
  raw : List (String × Iface)
  deriving DecidableEq

/-- Go `(*oauth2.Token).Extra`: the extension field `key`, nil when absent. -/
def Token.Extra (t : Token) (key : String) : Iface :=
  match t.raw.lookup key with
  | some v => v
  | none => Iface.nil

/-- Go `oidc.Config`, the verifier configuration. -/
structure OIDCConfig where
  ClientID : String
  SkipClientIDCheck : Bool := false
  SkipExpiryCheck : Bool := false
  deriving DecidableEq

/-- Go `oidc.Provider`: the discovered provider metadata. -/
structure Provider where
  issuer : String
  authURL : String
  tokenURL : String
  userInfoURL : String
  jwksURL : String
  deriving DecidableEq

/-- Go `oidc.IDTokenVerifier`. -/
structure IDTokenVerifier where
  issuer : String
  keySet : String
  config : OIDCConfig
  deriving DecidableEq

/-- Go `(*oidc.Provider).Endpoint`. -/
def Provider.Endpoint (p : Provider) : Endpoint := { AuthURL := p.authURL, TokenURL := p.tokenURL }

/-- Go `(*oidc.Provider).Verifier`: `NewVerifier(p.issuer, p.remoteKeySet, config)`. -/
def Provider.Verifier (p : Provider) (config : OIDCConfig) : IDTokenVerifier :=
  { issuer := p.issuer, keySet := p.jwksURL, config := config }

/-- Go `oidc.IDToken`: the verified claims. -/
structure IDToken where
  Issuer : String
  Audience : List String
  Subject : String
  Expiry : Nat
  IssuedAt : Nat
  Nonce : String
  deriving DecidableEq

/-- Go `oidc.ScopeOpenID`. -/
def ScopeOpenID : String := "openid"

/-- The library operations that leave the process or depend on it: provider discovery,
code exchange, token verification, and the encoding of query values. A library call
that returns an error returns no value beside it. -/
structure Env where
  NewProvider : Context → String → Except GoError Provider
  Exchange : OAuth2Config → Context → String → List AuthCodeOption → Except GoError Token
  Verify : IDTokenVerifier → Context → String → Except GoError IDToken
  Encode : List (String × String) → String

/-- A library call made by the adapter, with its arguments. -/
inductive Call where
  | newProvider (ctx : Context) (issuer : String) : Call
  | exchange (cfg : OAuth2Config) (ctx : Context) (code : String) (opt : List AuthCodeOption) : Call
  | verify (v : IDTokenVerifier) (ctx : Context) (rawIDToken : String) : Call
  deriving DecidableEq

/-- The query values `(*oauth2.Config).AuthCodeURL` sets for a state (no options). -/
def OAuth2Config.AuthCodeValues (c : OAuth2Config) (state : String) : List (String × String) :=
  [("response_type", "code"), ("client_id", c.ClientID)]
    ++ (if c.RedirectURL ≠ "" then [("redirect_uri", c.RedirectURL)] else [])
    ++ (if len c.Scopes > 0 then [("scope", Join (c.Scopes.getD []) " ")] else [])
    ++ (if state ≠ "" then [("state", state)] else [])

/-- Go `(*oauth2.Config).AuthCodeURL(state)`: the authorization endpoint, `?` (or `&`
when the endpoint already has a query) and the encoded query values. -/
def OAuth2Config.AuthCodeURL (env : Env) (c : OAuth2Config) (state : String) : String :=
  c.Endpoint.AuthURL ++ (if '?' ∈ c.Endpoint.AuthURL.data then "&" else "?")
    ++ env.Encode (c.AuthCodeValues state)

/-! ## The adapter -/

/-- Go `util.OpenIDC`; a nil pointer field is `none`. -/
structure OpenIDC where
  Issuer : String
  ClientID : String
  ClientSecret : String
  RedirectURL : String
  Scopes : Slice String
  oauth2 : Option OAuth2Config
  provider : Option Provider
  verifier : Option IDTokenVerifier
  validRedirectURI : Option CompiledRegexp

/-- What a method call does: it returns, or it dereferences a nil pointer field. -/
inductive Outcome (α : Type) where
  | returned (a : α) : Outcome α
  | nilDeref : Outcome α
  deriving DecidableEq

/-- The result of `Init`: the adapter afterwards, the library calls made, the error. -/
structure InitResult where
  app : OpenIDC
  calls : List Call
  err : Option GoError

/-- Go `(*OpenIDC).Init`, source lines 30-62. -/
def Init (env : Env) (app : OpenIDC) (ctx : Context) : InitResult :=
  if app.Issuer = "" then
    { app := app, calls := [], err := some { msg := "issuer is missing" } }
  else if app.ClientID = "" then
    { app := app, calls := [], err := some { msg := "client_id is missing" } }
  else
    let app := if app.RedirectURL = "" then { app with RedirectURL := "urn:ietf:wg:oauth:2.0:oob" } else app
    let app := if len app.Scopes = 0 then { app with Scopes := some [ScopeOpenID] } else app
    let app := { app with validRedirectURI := some validRedirectURIPattern }
    match env.NewProvider ctx app.Issuer with
    | Except.error err =>
      { app := { app with provider := none }, calls := [Call.newProvider ctx app.Issuer], err := some err }
    | Except.ok p =>
      let app := { app with provider := some p }
      let app := { app with verifier := some (p.Verifier { ClientID := app.ClientID }) }
      let app := { app with
        oauth2 := some
          { ClientID := app.ClientID
            ClientSecret := app.ClientSecret
            RedirectURL := app.RedirectURL
            Endpoint := p.Endpoint
            Scopes := app.Scopes } }
      { app := app, calls := [Call.newProvider ctx app.Issuer], err := none }

/-- The result of a method that does not assign to the adapter: the library calls
made and the outcome. -/
structure Run (α : Type) where
  calls : List Call
  outcome : Outcome α

/-- Go `(*OpenIDC).CodeToIDToken`, source lines 64-93. The returned pair is the
`*oidc.IDToken` and the `error`, `none` for nil. -/
def CodeToIDToken (env : Env) (app : OpenIDC) (ctx : Context) (code : String) :
    Run (Option IDToken × Option GoError) :=
  let opt : List AuthCodeOption := []
  let pieces := Split code ' '
  let cond : Outcome Bool :=
    if pieces.length = 2 then
      match app.validRedirectURI with
      | none => Outcome.nilDeref
      | some re => Outcome.returned (re.MatchString (pieces.getD 1 ""))
    else Outcome.returned false
  match cond with
  | Outcome.nilDeref => { calls := [], outcome := Outcome.nilDeref }
  | Outcome.returned b =>
    let code := if b then pieces.getD 0 "" else code
    let opt := if b then opt ++ [SetAuthURLParam "redirect_uri" (pieces.getD 1 "")] else opt
    match app.oauth2 with
    | none => { calls := [], outcome := Outcome.nilDeref }
    | some oauth2 =>
      match env.Exchange oauth2 ctx code opt with
      | Except.error err =>
        { calls := [Call.exchange oauth2 ctx code opt], outcome := Outcome.returned (none, some err) }
      | Except.ok oauth2Token =>
        let err : Option GoError := none
        match (oauth2Token.Extra "id_token").asString with
        | (_, false) =>
          { calls := [Call.exchange oauth2 ctx code opt], outcome := Outcome.returned (none, err) }
        | (rawIDToken, true) =>
          match app.verifier with
          | none => { calls := [Call.exchange oauth2 ctx code opt], outcome := Outcome.nilDeref }
          | some verifier =>
            match env.Verify verifier ctx rawIDToken with
            | Except.error err =>
              { calls := [Call.exchange oauth2 ctx code opt, Call.verify verifier ctx rawIDToken]
                outcome := Outcome.returned (none, some err) }
            | Except.ok idToken =>
              { calls := [Call.exchange oauth2 ctx code opt, Call.verify verifier ctx rawIDToken]
                outcome := Outcome.returned (some idToken, none) }

/-- Go `(*OpenIDC).AuthCodeURL`, source lines 95-97. -/
def AuthCodeURL (env : Env) (app : OpenIDC) (state : String) : Outcome String :=
  match app.oauth2 with
  | none => Outcome.nilDeref
  | some oauth2 => Outcome.returned (oauth2.AuthCodeURL env state)

/-- The operations a client of the package can invoke on an adapter. -/
inductive Op where
  | init (env : Env) (ctx : Context) : Op
  | authCodeURL (env : Env) (state : String) : Op
  | codeToIDToken (env : Env) (ctx : Context) (code : String) : Op

/-- The adapter after an operation; only `Init` assigns to the receiver. -/
def Op.post (app : OpenIDC) : Op → OpenIDC
  | Op.init env ctx => (Init env app ctx).app
  | Op.authCodeURL _ _ => app
  | Op.codeToIDToken _ _ _ => app

/-- The adapters a client of the package can hold: a struct literal sets the exported
fields only, exported fields can be assigned at any time, and methods can be called. -/
inductive Reachable : OpenIDC → Prop where
  | literal (issuer clientID clientSecret redirectURL : String) (scopes : Slice String) :
    Reachable
      { Issuer := issuer, ClientID := clientID, ClientSecret := clientSecret
        RedirectURL := redirectURL, Scopes := scopes
        oauth2 := none, provider := none, verifier := none, validRedirectURI := none }
  | assign (app : OpenIDC) (issuer clientID clientSecret redirectURL : String)
      (scopes : Slice String) : Reachable app →
    Reachable
      { app with Issuer := issuer, ClientID := clientID, ClientSecret := clientSecret
                 RedirectURL := redirectURL, Scopes := scopes }
  | step (app : OpenIDC) (op : Op) : Reachable app → Reachable (op.post app)

/-- The state Initialized: OAuth2 configuration, verifier and redirect matcher all set. -/
def Initialized (app : OpenIDC) : Prop :=
  app.oauth2.isSome = true ∧ app.verifier.isSome = true ∧ app.validRedirectURI.isSome = true

instance (app : OpenIDC) : Decidable (Initialized app) := by
  unfold Initialized
  infer_instance

/-- The exchange calls among a list of library calls, as (code, options). -/
def exchanges : List Call → List (String × List AuthCodeOption)
  | [] => []
  | Call.exchange _ _ code opt :: cs => (code, opt) :: exchanges cs
  | _ :: cs => exchanges cs

/-- The raw tokens handed to the verifier among a list of library calls. -/
def verifications : List Call → List String
  | [] => []
  | Call.verify _ _ raw :: cs => raw :: verifications cs
  | _ :: cs => verifications cs

/-! ## Sample environment -/

/-- A provider as discovery might return it. -/
def sampleProvider : Provider :=
  { issuer := "https://idp.example", authURL := "https://idp.example/auth"
    tokenURL := "https://idp.example/token", userInfoURL := "https://idp.example/userinfo"
    jwksURL := "https://idp.example/keys" }

/-- Claims as the verifier might return them. -/
def sampleIDToken : IDToken :=
  { Issuer := "https://idp.example", Audience := ["client"], Subject := "alice"
    Expiry := 2000, IssuedAt := 1000, Nonce := "" }

/-- A token response with an `id_token` extension field. -/
def sampleToken : Token :=
  { AccessToken := "at", TokenType := "Bearer", RefreshToken := ""
    raw := [("id_token", Iface.str "raw.jwt.sig")] }

/-- A token response without an `id_token` extension field. -/
def tokenWithoutIDToken : Token :=
  { AccessToken := "at", TokenType := "Bearer", RefreshToken := "", raw := [] }

/-- An environment in which every library call succeeds. -/
def okEnv : Env :=
  { NewProvider := fun _ _ => Except.ok sampleProvider
    Exchange := fun _ _ _ _ => Except.ok sampleToken
    Verify := fun _ _ _ => Except.ok sampleIDToken
    Encode := fun vs => Join (vs.map fun kv => kv.1 ++ "=" ++ kv.2) "&" }

/-- An environment whose token responses lack the `id_token` field. -/
def noIDTokenEnv : Env := { okEnv with Exchange := fun _ _ _ _ => Except.ok tokenWithoutIDToken }

/-- An environment in which the exchange is rejected. -/
def exchangeFailsEnv : Env :=
  { okEnv with Exchange := fun _ _ _ _ => Except.error { msg := "oauth2: cannot fetch token" } }

/-- An environment in which the verifier rejects every token. -/
def verifyFailsEnv : Env :=
  { okEnv with Verify := fun _ _ _ => Except.error { msg := "oidc: expected audience" } }

/-- An environment in which discovery fails. -/
def discoveryFailsEnv : Env :=
  { okEnv with NewProvider := fun _ _ => Except.error { msg := "404 Not Found" } }

/-- A struct literal with issuer and client identifier only. -/
def sampleApp : OpenIDC :=
  { Issuer := "https://idp.example", ClientID := "client", ClientSecret := ""
    RedirectURL := "", Scopes := none
    oauth2 := none, provider := none, verifier := none, validRedirectURI := none }

/-- The OAuth2 configuration `Init` stores for the sample adapter. -/
def sampleConfig : OAuth2Config :=
  { ClientID := "client", ClientSecret := "", RedirectURL := "urn:ietf:wg:oauth:2.0:oob"
    Endpoint := sampleProvider.Endpoint, Scopes := some ["openid"] }

/-- The sample adapter after `Init` in the all-succeeding environment. -/
def sampleInitialized : OpenIDC := (Init okEnv sampleApp { id := 0 }).app

/-! ## Specification-side and auxiliary definitions -/

/-- The characters the class `\s` of Go `regexp` stands for: tab, newline, form feed,
carriage return and space. -/
def regexpWhitespace : List Char := "\t\n\x0c\r ".data

/-- The form the specification gives for an accepted redirect URI: `http://`, then
`localhost` or `127.0.0.1`, then `:`, one or more decimal digits, `/`, and zero or
more non-whitespace characters. -/
def LoopbackHTTPURI (s : String) : Prop :=
  ∃ host digits rest : String,
    s = "http://" ++ host ++ ":" ++ digits ++ "/" ++ rest ∧
    (host = "localhost" ∨ host = "127.0.0.1") ∧
    digits ≠ "" ∧
    (∀ c ∈ digits.data, c ∈ "0123456789".data) ∧
    (∀ c ∈ rest.data, c ∉ regexpWhitespace)

/-- The redirect URL after the defaulting step of `Init`. -/
def defaultedRedirectURL (app : OpenIDC) : String :=
  if app.RedirectURL = "" then "urn:ietf:wg:oauth:2.0:oob" else app.RedirectURL

/-- The scopes after the defaulting step of `Init`. -/
def defaultedScopes (app : OpenIDC) : Slice String :=
  if len app.Scopes = 0 then some [ScopeOpenID] else app.Scopes

/-- What every adapter a client can hold satisfies: the matcher, when set, is the
pattern of `Init`; configuration and verifier are set together, and only with the
matcher. -/
def Invariant (app : OpenIDC) : Prop :=
  (app.validRedirectURI = none ∨ app.validRedirectURI = some validRedirectURIPattern) ∧
  (app.oauth2.isSome = true ↔ app.verifier.isSome = true) ∧
  (app.oauth2.isSome = true → app.validRedirectURI.isSome = true)

/-- The code and options handed to the exchange, source lines 67-72, for a set matcher. -/
def exchangeArgs (re : CompiledRegexp) (code : String) : String × List AuthCodeOption :=
  if (Split code ' ').length = 2 ∧ re.MatchString ((Split code ' ').getD 1 "") = true then
    ((Split code ' ').getD 0 "", [SetAuthURLParam "redirect_uri" ((Split code ' ').getD 1 "")])
  else (code, [])

/-! ## Lemmas on `strings.Split` -/

theorem Count_eq_count (s : List Char) (sep : Char) : Count s sep = s.count sep := by
  induction s with
  | nil => rfl
  | cons c cs ih =>
    by_cases h : c = sep
    · simp [Count, h, ih]
    · simp [Count, h, ih, List.count_cons]

theorem Count_append (a b : List Char) (sep : Char) :
    Count (a ++ b) sep = Count a sep + Count b sep := by
  simp [Count_eq_count]

theorem Count_eq_zero {s : List Char} {sep : Char} : Count s sep = 0 ↔ sep ∉ s := by
  simp [Count_eq_count, List.count_eq_zero]

theorem Index_eq_none {s : List Char} {sep : Char} : Index s sep = none ↔ sep ∉ s := by
  induction s with
  | nil => simp [Index]
  | cons c cs ih =>
    by_cases h : c = sep
    · simp [Index, h]
    · have h2 : ¬ sep = c := fun e => h e.symm
      simp [Index, h, h2, ih]

theorem Index_eq_some {s : List Char} {sep : Char} {m : Nat} (h : Index s sep = some m) :
    s = s.take m ++ sep :: s.drop (m + 1) ∧ sep ∉ s.take m := by
  induction s generalizing m with
  | nil => simp [Index] at h
  | cons c cs ih =>
    by_cases hc : c = sep
    · simp [Index, hc] at h
      subst h
      simp [hc]
    · have h2 : ¬ sep = c := fun e => hc e.symm
      simp only [Index, hc, if_false] at h
      cases hi : Index cs sep with
      | none => simp [hi] at h
      | some k =>
        simp [hi] at h
        subst h
        obtain ⟨h1, h3⟩ := ih hi
        refine ⟨?_, ?_⟩
        · simp only [List.take_succ_cons, List.drop_succ_cons, List.cons_append]
          rw [← h1]
        · simp [List.take_succ_cons, h2, h3]

theorem Index_append_sep {a : List Char} {sep : Char} (b : List Char) (ha : sep ∉ a) :
    Index (a ++ sep :: b) sep = some a.length := by
  induction a with
  | nil => simp [Index]
  | cons c cs ih =>
    have hc : ¬ c = sep := fun e => ha (by simp [e])
    have hcs : sep ∉ cs := fun e => ha (by simp [e])
    simp [Index, hc, ih hcs]

/-- The loop run with the separator count as bound yields one piece more than the count. -/
theorem genSplitLoop_length (sep : Char) :
    ∀ (k : Nat) (s : List Char), Count s sep = k → (genSplitLoop sep k s).length = k + 1 := by
  intro k
  induction k with
  | zero => intro s _; rfl
  | succ k ih =>
    intro s hs
    cases hi : Index s sep with
    | none =>
      have := Count_eq_zero.mpr (Index_eq_none.mp hi)
      omega
    | some m =>
      obtain ⟨h1, h2⟩ := Index_eq_some hi
      have hc : Count s sep = Count (s.take m) sep + Count (sep :: s.drop (m + 1)) sep := by
        rw [← Count_append, ← h1]
      have h0 := Count_eq_zero.mpr h2
      simp only [Count, if_true] at hc
      have hk : Count (s.drop (m + 1)) sep = k := by omega
      simp [genSplitLoop, hi, ih _ hk]

theorem Split_length (s : String) (sep : Char) : (Split s sep).length = Count s.data sep + 1 := by
  simp [Split, genSplitLoop_length sep _ _ rfl]

/-- A string made of two separator-free parts around one separator splits into them. -/
theorem Split_of_parts (a b : String) (sep : Char) (ha : sep ∉ a.data) (hb : sep ∉ b.data) :
    Split (a ++ String.singleton sep ++ b) sep = [a, b] := by
  have hd : (a ++ String.singleton sep ++ b).data = a.data ++ sep :: b.data := by
    simp [String.data_append, String.singleton]
  have hc : Count (a.data ++ sep :: b.data) sep = 1 := by
    rw [Count_append]
    simp [Count, Count_eq_zero.mpr ha, Count_eq_zero.mpr hb]
  have h3 : (a.data ++ sep :: b.data).take a.data.length = a.data := by simp
  have h4 : ∀ x : List Char, (x ++ sep :: b.data).drop (x.length + 1) = b.data := by
    intro x
    induction x with
    | nil => rfl
    | cons c cs ih => simp
  have h4 := h4 a.data
  simp only [Split, hd, hc, genSplitLoop, Index_append_sep b.data ha, h3, h4]
  rfl

/-- Two pieces are separator-free and rebuild the string around one separator. -/
theorem Split_two {s : String} {sep : Char} (h : (Split s sep).length = 2) :
    ∃ a b : String, Split s sep = [a, b] ∧ s = a ++ String.singleton sep ++ b ∧
      sep ∉ a.data ∧ sep ∉ b.data := by
  have hc : Count s.data sep = 1 := by
    rw [Split_length] at h
    omega
  cases hi : Index s.data sep with
  | none =>
    have := Count_eq_zero.mpr (Index_eq_none.mp hi)
    omega
  | some m =>
    obtain ⟨h1, h2⟩ := Index_eq_some hi
    have hc2 : Count s.data sep = Count (s.data.take m) sep + Count (sep :: s.data.drop (m + 1)) sep := by
      rw [← Count_append, ← h1]
    have h0 := Count_eq_zero.mpr h2
    simp only [Count, if_true] at hc2
    have hk : Count (s.data.drop (m + 1)) sep = 0 := by omega
    refine ⟨String.mk (s.data.take m), String.mk (s.data.drop (m + 1)), ?_, ?_, h2,
      Count_eq_zero.mp hk⟩
    · simp [Split, hc, genSplitLoop, hi]
    · apply String.ext
      simp only [String.data_append, String.singleton, List.append_assoc, List.singleton_append]
      exact h1

/-! ## Lemmas on matching -/

namespace Regexp

@[simp]
theorem rmatch_nil (r : Regexp) : rmatch r [] = r.nullable := rfl

@[simp]
theorem rmatch_cons (r : Regexp) (c : Char) (cs : List Char) :
    rmatch r (c :: cs) = rmatch (r.deriv c) cs := rfl

theorem rmatch_noMatch (s : List Char) : rmatch noMatch s = false := by
  induction s with
  | nil => rfl
  | cons c cs ih => simpa [deriv] using ih

theorem rmatch_emptyMatch (s : List Char) : rmatch emptyMatch s = true ↔ s = [] := by
  cases s with
  | nil => simp [nullable]
  | cons c cs => simp [deriv, rmatch_noMatch]

theorem rmatch_literal (d : Char) (s : List Char) : rmatch (literal d) s = true ↔ s = [d] := by
  cases s with
  | nil => simp [nullable]
  | cons c cs =>
    by_cases h : c = d
    · simp [deriv, h, rmatch_emptyMatch]
    · simp [deriv, h, rmatch_noMatch]

theorem rmatch_charClass (n : Bool) (rs : List (Nat × Nat)) (s : List Char) :
    rmatch (charClass n rs) s = true ↔ ∃ c, s = [c] ∧ inClass n rs c = true := by
  cases s with
  | nil => simp [nullable]
  | cons c cs =>
    by_cases h : inClass n rs c = true
    · simp only [rmatch_cons, deriv, h, if_true, rmatch_emptyMatch]
      constructor
      · rintro rfl
        exact ⟨c, rfl, h⟩
      · rintro ⟨d, hd, _⟩
        simp at hd
        exact hd.2
    · have h2 : inClass n rs c = false := by simpa using h
      simp only [rmatch_cons, deriv, h2, Bool.false_eq_true, if_false, rmatch_noMatch]
      constructor
      · intro hf
        cases hf
      · rintro ⟨d, hd, hin⟩
        simp at hd
        rw [← hd.1] at hin
        exact absurd hin h

theorem rmatch_alternate (a b : Regexp) (s : List Char) :
    rmatch (alternate a b) s = (rmatch a s || rmatch b s) := by
  induction s generalizing a b with
  | nil => simp [nullable]
  | cons c cs ih => simp [deriv, ih]

theorem rmatch_concat (a b : Regexp) (s : List Char) :
    rmatch (concat a b) s = true ↔
      ∃ x y, s = x ++ y ∧ rmatch a x = true ∧ rmatch b y = true := by
  induction s generalizing a with
  | nil =>
    constructor
    · intro h
      simp [nullable] at h
      exact ⟨[], [], rfl, h.1, h.2⟩
    · rintro ⟨x, y, h, hx, hy⟩
      have hxy := List.append_eq_nil.mp h.symm
      rw [hxy.1] at hx
      rw [hxy.2] at hy
      simp [nullable] at *
      exact ⟨hx, hy⟩
  | cons c cs ih =>
    rw [rmatch_cons]
    by_cases hn : a.nullable = true
    · simp only [deriv, hn, if_true, rmatch_alternate, Bool.or_eq_true, ih]
      constructor
      · rintro (⟨x, y, h, hx, hy⟩ | h)
        · exact ⟨c :: x, y, by simp [h], hx, hy⟩
        · exact ⟨[], c :: cs, rfl, hn, h⟩
      · rintro ⟨x, y, h, hx, hy⟩
        cases x with
        | nil =>
          right
          simp at h
          subst h
          exact hy
        | cons d x =>
          left
          simp at h
          obtain ⟨rfl, rfl⟩ := h
          exact ⟨x, y, rfl, hx, hy⟩
    · have hn2 : a.nullable = false := by simpa using hn
      simp only [deriv, hn2, Bool.false_eq_true, if_false, ih]
      constructor
      · rintro ⟨x, y, h, hx, hy⟩
        exact ⟨c :: x, y, by simp [h], hx, hy⟩
      · rintro ⟨x, y, h, hx, hy⟩
        cases x with
        | nil => exact absurd hx hn
        | cons d x =>
          simp at h
          obtain ⟨rfl, rfl⟩ := h
          exact ⟨x, y, rfl, hx, hy⟩

theorem rmatch_litChars (w s : List Char) : rmatch (litChars w) s = true ↔ s = w := by
  induction w generalizing s with
  | nil => simpa [litChars] using rmatch_emptyMatch s
  | cons c w ih =>
    simp only [litChars, rmatch_concat, rmatch_literal, ih]
    constructor
    · rintro ⟨x, y, rfl, rfl, rfl⟩
      rfl
    · rintro rfl
      exact ⟨[c], w, rfl, rfl, rfl⟩

theorem rmatch_star_charClass (n : Bool) (rs : List (Nat × Nat)) (s : List Char) :
    rmatch (star (charClass n rs)) s = true ↔ ∀ c ∈ s, inClass n rs c = true := by
  induction s with
  | nil => simp [nullable]
  | cons c cs ih =>
    rw [rmatch_cons]
    simp only [deriv, rmatch_concat]
    by_cases h : inClass n rs c = true
    · simp only [h, if_true, rmatch_emptyMatch, List.mem_cons, forall_eq_or_imp, true_and]
      rw [← ih]
      constructor
      · rintro ⟨x, y, rfl, rfl, hy⟩
        exact hy
      · intro hy
        exact ⟨[], cs, rfl, rfl, hy⟩
    · simp [h, rmatch_noMatch]

end Regexp


/-! ## The language of the redirect pattern -/

theorem toNat_eq_iff (c : Char) (n : Nat) (h : (Char.ofNat n).toNat = n) :
    c.toNat = n ↔ c = Char.ofNat n := by
  constructor
  · intro e
    rw [← e, Char.ofNat_toNat]
  · intro e
    rw [e, h]

theorem inClass_dot (c : Char) : Regexp.inClass false [(0x2e, 0x2e)] c = true ↔ c = '.' := by
  have := toNat_eq_iff c 0x2e (by decide)
  simp only [Regexp.inClass, List.any_cons, List.any_nil, Bool.or_false, bne_iff_ne, ne_eq,
    Bool.not_eq_false, Bool.and_eq_true, decide_eq_true_eq]
  constructor
  · intro h
    exact this.mp (by omega)
  · intro h
    have := this.mpr h
    omega

theorem inClass_perlDigit (c : Char) :
    Regexp.inClass false perlDigit c = true ↔ c ∈ "0123456789".data := by
  simp only [Regexp.inClass, perlDigit, List.any_cons, List.any_nil, Bool.or_false, bne_iff_ne,
    ne_eq, Bool.not_eq_false, Bool.and_eq_true, decide_eq_true_eq]
  constructor
  · rintro ⟨h1, h2⟩
    have hc : c = Char.ofNat c.toNat := (Char.ofNat_toNat c).symm
    generalize c.toNat = n at h1 h2 hc
    subst hc
    interval_cases n <;> decide
  · intro h
    simp only [List.mem_cons, List.mem_singleton, List.not_mem_nil, or_false] at h
    rcases h with h | h | h | h | h | h | h | h | h | h <;> subst h <;> decide

theorem inClass_perlSpace (c : Char) :
    Regexp.inClass true perlSpace c = true ↔ c ∉ regexpWhitespace := by
  simp only [Regexp.inClass, perlSpace, List.any_cons, List.any_nil, Bool.or_false, bne_iff_ne,
    ne_eq, Bool.and_eq_true, Bool.or_eq_true, decide_eq_true_eq]
  constructor
  · intro h hm
    simp only [regexpWhitespace, List.mem_cons, List.mem_singleton, List.not_mem_nil,
      or_false] at hm
    rcases hm with hm | hm | hm | hm | hm <;> subst hm <;> exact h (by decide)
  · intro h hn
    apply h
    have hc : c = Char.ofNat c.toNat := (Char.ofNat_toNat c).symm
    generalize c.toNat = n at hn hc
    subst hc
    have hn2 : n = 9 ∨ n = 10 ∨ n = 12 ∨ n = 13 ∨ n = 32 := by omega
    rcases hn2 with e | e | e | e | e <;> subst e <;> decide


/-- The dotted address `127[.]0[.]0[.]1` matches exactly `127.0.0.1`. -/
theorem rmatch_loopbackAddress (x : List Char) :
    loopbackAddress.rmatch x = true ↔ x = "127.0.0.1".data := by
  simp only [loopbackAddress, Regexp.rmatch_concat, Regexp.lit, Regexp.rmatch_litChars, Regexp.rmatch_charClass,
    inClass_dot]
  constructor
  · rintro ⟨_, _, rfl, rfl, _, _, rfl, ⟨_, rfl, rfl⟩, _, _, rfl, rfl, _, _, rfl, ⟨_, rfl, rfl⟩,
      _, _, rfl, rfl, _, _, rfl, ⟨_, rfl, rfl⟩, rfl⟩
    rfl
  · rintro rfl
    exact ⟨_, _, rfl, rfl, _, _, rfl, ⟨_, rfl, rfl⟩, _, _, rfl, rfl, _, _, rfl, ⟨_, rfl, rfl⟩,
      _, _, rfl, rfl, _, _, rfl, ⟨_, rfl, rfl⟩, rfl⟩

/-- The strings the body of the redirect pattern matches, on character lists. -/
theorem rmatch_body (s : List Char) :
    validRedirectURIPattern.body.rmatch s = true ↔
      ∃ host digits rest : List Char,
        s = "http://".data ++ (host ++ (":".data ++ (digits ++ ("/".data ++ rest)))) ∧
        (host = "localhost".data ∨ host = "127.0.0.1".data) ∧
        digits ≠ [] ∧
        (∀ c ∈ digits, c ∈ "0123456789".data) ∧
        (∀ c ∈ rest, c ∉ regexpWhitespace) := by
  simp only [validRedirectURIPattern, Regexp.rmatch_concat, Regexp.rmatch_alternate,
    Bool.or_eq_true, rmatch_loopbackAddress, Regexp.plus, Regexp.rmatch_star_charClass,
    Regexp.rmatch_charClass, inClass_perlDigit, inClass_perlSpace]
  simp only [Regexp.lit, Regexp.rmatch_litChars]
  constructor
  · rintro ⟨_, _, rfl, rfl, host, _, rfl, hh, _, _, rfl, rfl, _, _, rfl,
      ⟨_, ds, rfl, ⟨d, rfl, hd⟩, hds⟩, _, rest, rfl, rfl, hr⟩
    refine ⟨host, d :: ds, rest, by simp, hh, by simp, ?_, hr⟩
    intro c hc
    rcases List.mem_cons.mp hc with e | e
    · rw [e]
      exact hd
    · exact hds c e
  · rintro ⟨host, digits, rest, rfl, hh, hne, hd, hr⟩
    cases digits with
    | nil => exact absurd rfl hne
    | cons d ds =>
      exact ⟨_, _, rfl, rfl, host, _, rfl, hh, _, _, rfl, rfl, _, _, rfl,
        ⟨[d], ds, rfl, ⟨d, rfl, hd d (List.mem_cons_self d ds)⟩,
          fun c hc => hd c (List.mem_cons_of_mem d hc)⟩, _, rest, rfl, rfl, hr⟩

/-- The redirect matcher accepts exactly the strings of the loopback form. -/
theorem MatchString_iff (s : String) :
    validRedirectURIPattern.MatchString s = true ↔ LoopbackHTTPURI s := by
  have hb : validRedirectURIPattern.MatchString s = validRedirectURIPattern.body.rmatch s.data := by
    simp [CompiledRegexp.MatchString, validRedirectURIPattern]
  rw [hb, rmatch_body]
  constructor
  · rintro ⟨host, digits, rest, hs, hh, hne, hd, hr⟩
    refine ⟨String.mk host, String.mk digits, String.mk rest, ?_, ?_, ?_, hd, hr⟩
    · apply String.ext
      simp only [String.data_append]
      rw [hs]
      simp
    · rcases hh with e | e
      · left
        rw [e]
      · right
        rw [e]
    · intro e
      apply hne
      have := congrArg String.data e
      simpa using this
  · rintro ⟨host, digits, rest, rfl, hh, hne, hd, hr⟩
    refine ⟨host.data, digits.data, rest.data, by simp [String.data_append], ?_, ?_, hd, hr⟩
    · rcases hh with e | e
      · left
        rw [e]
      · right
        rw [e]
    · intro e
      apply hne
      apply String.ext
      rw [e]


/-! ## Lemmas on `Init` -/

theorem Init_issuer_missing (env : Env) (app : OpenIDC) (ctx : Context) (h : app.Issuer = "") :
    Init env app ctx = { app := app, calls := [], err := some { msg := "issuer is missing" } } := by
  simp [Init, h]

theorem Init_client_id_missing (env : Env) (app : OpenIDC) (ctx : Context)
    (h : app.Issuer ≠ "") (h2 : app.ClientID = "") :
    Init env app ctx = { app := app, calls := [], err := some { msg := "client_id is missing" } } := by
  simp [Init, h, h2]

theorem Init_discovery_error (env : Env) (app : OpenIDC) (ctx : Context) (err : GoError)
    (h : app.Issuer ≠ "") (h2 : app.ClientID ≠ "")
    (hp : env.NewProvider ctx app.Issuer = Except.error err) :
    Init env app ctx =
      { app := { app with RedirectURL := defaultedRedirectURL app, Scopes := defaultedScopes app
                          validRedirectURI := some validRedirectURIPattern, provider := none }
        calls := [Call.newProvider ctx app.Issuer], err := some err } := by
  simp only [Init, h, h2, if_false, defaultedRedirectURL, defaultedScopes]
  by_cases hr : app.RedirectURL = "" <;> by_cases hs : len app.Scopes = 0 <;>
    simp [hr, hs, hp]

theorem Init_ok (env : Env) (app : OpenIDC) (ctx : Context) (p : Provider)
    (h : app.Issuer ≠ "") (h2 : app.ClientID ≠ "")
    (hp : env.NewProvider ctx app.Issuer = Except.ok p) :
    Init env app ctx =
      { app := { app with
          RedirectURL := defaultedRedirectURL app, Scopes := defaultedScopes app
          validRedirectURI := some validRedirectURIPattern, provider := some p
          verifier := some (p.Verifier { ClientID := app.ClientID })
          oauth2 := some
            { ClientID := app.ClientID, ClientSecret := app.ClientSecret
              RedirectURL := defaultedRedirectURL app, Endpoint := p.Endpoint
              Scopes := defaultedScopes app } }
        calls := [Call.newProvider ctx app.Issuer], err := none } := by
  simp only [Init, h, h2, if_false, defaultedRedirectURL, defaultedScopes]
  by_cases hr : app.RedirectURL = "" <;> by_cases hs : len app.Scopes = 0 <;>
    simp [hr, hs, hp]

theorem Init_invariant (env : Env) (app : OpenIDC) (ctx : Context) (h : Invariant app) :
    Invariant (Init env app ctx).app := by
  by_cases hi : app.Issuer = ""
  · rw [Init_issuer_missing env app ctx hi]
    exact h
  by_cases hc : app.ClientID = ""
  · rw [Init_client_id_missing env app ctx hi hc]
    exact h
  cases hp : env.NewProvider ctx app.Issuer with
  | error err =>
    rw [Init_discovery_error env app ctx err hi hc hp]
    exact ⟨Or.inr rfl, h.2.1, fun _ => rfl⟩
  | ok p =>
    rw [Init_ok env app ctx p hi hc hp]
    exact ⟨Or.inr rfl, Iff.rfl, fun _ => rfl⟩

theorem Reachable.invariant {app : OpenIDC} (h : Reachable app) : Invariant app := by
  induction h with
  | literal issuer clientID clientSecret redirectURL scopes =>
    exact ⟨Or.inl rfl, Iff.rfl, fun h => by cases h⟩
  | assign app issuer clientID clientSecret redirectURL scopes _ ih => exact ih
  | step app op _ ih =>
    cases op with
    | init env ctx => exact Init_invariant env app ctx ih
    | authCodeURL env state => exact ih
    | codeToIDToken env ctx code => exact ih

/-- An initialized adapter a client can hold has the pattern of `Init` as matcher. -/
theorem Reachable.fields {app : OpenIDC} (h : Reachable app) (hi : Initialized app) :
    ∃ cfg v, app.oauth2 = some cfg ∧ app.verifier = some v ∧
      app.validRedirectURI = some validRedirectURIPattern := by
  obtain ⟨h1, h2, h3⟩ := hi
  obtain ⟨cfg, hcfg⟩ := Option.isSome_iff_exists.mp h1
  obtain ⟨v, hv⟩ := Option.isSome_iff_exists.mp h2
  refine ⟨cfg, v, hcfg, hv, ?_⟩
  rcases h.invariant.1 with e | e
  · rw [e] at h3
    cases h3
  · exact e

theorem sampleInitialized_reachable : Reachable sampleInitialized :=
  Reachable.step sampleApp (Op.init okEnv { id := 0 })
    (Reachable.literal "https://idp.example" "client" "" "" none)

theorem sampleInitialized_initialized : Initialized sampleInitialized := by
  refine ⟨?_, ?_, ?_⟩ <;> rfl

/-! ## Lemmas on `CodeToIDToken` -/

/-- The run of `CodeToIDToken` on an adapter whose pointer fields are set. -/
theorem CodeToIDToken_eq (env : Env) (app : OpenIDC) (ctx : Context) (code : String)
    (cfg : OAuth2Config) (v : IDTokenVerifier) (re : CompiledRegexp)
    (hc : app.oauth2 = some cfg) (hv : app.verifier = some v)
    (hr : app.validRedirectURI = some re) :
    CodeToIDToken env app ctx code =
      match env.Exchange cfg ctx (exchangeArgs re code).1 (exchangeArgs re code).2 with
      | Except.error err =>
        { calls := [Call.exchange cfg ctx (exchangeArgs re code).1 (exchangeArgs re code).2]
          outcome := Outcome.returned (none, some err) }
      | Except.ok tok =>
        match tok.Extra "id_token" with
        | Iface.str raw =>
          match env.Verify v ctx raw with
          | Except.error err =>
            { calls := [Call.exchange cfg ctx (exchangeArgs re code).1 (exchangeArgs re code).2,
                Call.verify v ctx raw]
              outcome := Outcome.returned (none, some err) }
          | Except.ok idToken =>
            { calls := [Call.exchange cfg ctx (exchangeArgs re code).1 (exchangeArgs re code).2,
                Call.verify v ctx raw]
              outcome := Outcome.returned (some idToken, none) }
        | _ =>
          { calls := [Call.exchange cfg ctx (exchangeArgs re code).1 (exchangeArgs re code).2]
            outcome := Outcome.returned (none, none) } := by
  have hfin : ∀ (c : String) (opt : List AuthCodeOption),
      (match env.Exchange cfg ctx c opt with
      | Except.error err =>
        ({ calls := [Call.exchange cfg ctx c opt], outcome := Outcome.returned (none, some err) } :
          Run (Option IDToken × Option GoError))
      | Except.ok oauth2Token =>
        match (oauth2Token.Extra "id_token").asString with
        | (_, false) =>
          { calls := [Call.exchange cfg ctx c opt], outcome := Outcome.returned (none, none) }
        | (rawIDToken, true) =>
          match env.Verify v ctx rawIDToken with
          | Except.error err =>
            { calls := [Call.exchange cfg ctx c opt, Call.verify v ctx rawIDToken]
              outcome := Outcome.returned (none, some err) }
          | Except.ok idToken =>
            { calls := [Call.exchange cfg ctx c opt, Call.verify v ctx rawIDToken]
              outcome := Outcome.returned (some idToken, none) }) =
      (match env.Exchange cfg ctx c opt with
      | Except.error err =>
        { calls := [Call.exchange cfg ctx c opt], outcome := Outcome.returned (none, some err) }
      | Except.ok tok =>
        match tok.Extra "id_token" with
        | Iface.str raw =>
          match env.Verify v ctx raw with
          | Except.error err =>
            { calls := [Call.exchange cfg ctx c opt, Call.verify v ctx raw]
              outcome := Outcome.returned (none, some err) }
          | Except.ok idToken =>
            { calls := [Call.exchange cfg ctx c opt, Call.verify v ctx raw]
              outcome := Outcome.returned (some idToken, none) }
        | _ => { calls := [Call.exchange cfg ctx c opt], outcome := Outcome.returned (none, none) }) := by
    intro c opt
    cases env.Exchange cfg ctx c opt with
    | error err => rfl
    | ok tok =>
      simp only []
      cases tok.Extra "id_token" <;> simp only [Iface.asString]
  simp only [CodeToIDToken, hc, hv, hr, exchangeArgs]
  by_cases h2 : (Split code ' ').length = 2
  · by_cases hm : re.MatchString ((Split code ' ').getD 1 "") = true
    · simp only [h2, hm, if_true, and_self, List.nil_append]
      exact hfin _ _
    · have hm2 : re.MatchString ((Split code ' ').getD 1 "") = false := by simpa using hm
      simp only [h2, hm2, if_true, Bool.false_eq_true, and_false, if_false]
      exact hfin _ _
  · simp only [h2, false_and, if_false, Bool.false_eq_true]
    exact hfin _ _

theorem exchanges_CodeToIDToken (env : Env) (app : OpenIDC) (ctx : Context) (code : String)
    (hr : Reachable app) (hi : Initialized app) :
    exchanges (CodeToIDToken env app ctx code).calls =
      [exchangeArgs validRedirectURIPattern code] := by
  obtain ⟨cfg, v, hc, hv, hre⟩ := hr.fields hi
  rw [CodeToIDToken_eq env app ctx code cfg v _ hc hv hre]
  cases env.Exchange cfg ctx _ _ with
  | error err => rfl
  | ok tok =>
    simp only []
    cases tok.Extra "id_token" <;> try rfl
    simp only []
    cases env.Verify v ctx _ <;> rfl

theorem singleton_space : String.singleton ' ' = " " := rfl

theorem exchangeArgs_of_parts (re : CompiledRegexp) (a b : String) (ha : ' ' ∉ a.data)
    (hb : ' ' ∉ b.data) (hm : re.MatchString b = true) :
    exchangeArgs re (a ++ " " ++ b) = (a, [SetAuthURLParam "redirect_uri" b]) := by
  have hs := Split_of_parts a b ' ' ha hb
  rw [singleton_space] at hs
  simp [exchangeArgs, hs, hm]

theorem exchangeArgs_cases (re : CompiledRegexp) (code : String) :
    exchangeArgs re code = (code, []) ∨
    ∃ a b : String, code = a ++ " " ++ b ∧ ' ' ∉ a.data ∧ ' ' ∉ b.data ∧
      re.MatchString b = true ∧ exchangeArgs re code = (a, [SetAuthURLParam "redirect_uri" b]) := by
  by_cases h : (Split code ' ').length = 2 ∧ re.MatchString ((Split code ' ').getD 1 "") = true
  · right
    obtain ⟨a, b, hs, hcode, ha, hb⟩ := Split_two h.1
    rw [singleton_space] at hcode
    have hm : re.MatchString b = true := by
      have := h.2
      rw [hs] at this
      simpa using this
    exact ⟨a, b, hcode, ha, hb, hm, by rw [hcode]; exact exchangeArgs_of_parts re a b ha hb hm⟩
  · left
    simp only [exchangeArgs, h, if_false]

theorem Count_one_iff (code : String) :
    Count code.data ' ' = 1 ↔
      ∃ a b : String, code = a ++ " " ++ b ∧ ' ' ∉ a.data ∧ ' ' ∉ b.data := by
  constructor
  · intro h
    have h2 : (Split code ' ').length = 2 := by rw [Split_length, h]
    obtain ⟨a, b, _, hcode, ha, hb⟩ := Split_two h2
    rw [singleton_space] at hcode
    exact ⟨a, b, hcode, ha, hb⟩
  · rintro ⟨a, b, rfl, ha, hb⟩
    have := Split_length (a ++ " " ++ b) ' '
    have hs := Split_of_parts a b ' ' ha hb
    rw [singleton_space] at hs
    rw [hs] at this
    simp only [List.length_cons, List.length_nil] at this
    omega

/-! ## The claims -/

/-- C1: on an initialized adapter, `CodeToIDToken` makes one exchange call; when the
input is `a`, one space, `b` with no further space (exactly one space in the input,
in terms of `Count`) and `b` matches the redirect pattern, the call has code `a` and
the single option `redirect_uri = b`; in every other case it has the whole input as
code and no option. -/
theorem CodeToIDToken_exchange_arguments (env : Env) (app : OpenIDC) (ctx : Context)
    (code : String) (hr : Reachable app) (hi : Initialized app) :
    (Count code.data ' ' = 1 ↔
      ∃ a b : String, code = a ++ " " ++ b ∧ ' ' ∉ a.data ∧ ' ' ∉ b.data) ∧
    (∀ a b : String, code = a ++ " " ++ b → ' ' ∉ a.data → ' ' ∉ b.data →
      validRedirectURIPattern.MatchString b = true →
      exchanges (CodeToIDToken env app ctx code).calls =
        [(a, [SetAuthURLParam "redirect_uri" b])]) ∧
    ((¬ ∃ a b : String, code = a ++ " " ++ b ∧ ' ' ∉ a.data ∧ ' ' ∉ b.data ∧
        validRedirectURIPattern.MatchString b = true) →
      exchanges (CodeToIDToken env app ctx code).calls = [(code, [])]) := by
  refine ⟨Count_one_iff code, ?_, ?_⟩
  · intro a b hcode ha hb hm
    rw [exchanges_CodeToIDToken env app ctx code hr hi, hcode,
      exchangeArgs_of_parts _ a b ha hb hm]
  · intro hno
    rw [exchanges_CodeToIDToken env app ctx code hr hi]
    rcases exchangeArgs_cases validRedirectURIPattern code with h | ⟨a, b, h1, h2, h3, h4, _⟩
    · rw [h]
    · exact absurd ⟨a, b, h1, h2, h3, h4⟩ hno

/-- C1, at the input of the specification: `abc123 http://localhost:4123/cb` is
exchanged as code `abc123` with override `http://localhost:4123/cb`. -/
theorem CodeToIDToken_exchange_arguments_witness :
    Reachable sampleInitialized ∧ Initialized sampleInitialized ∧
    exchanges (CodeToIDToken okEnv sampleInitialized { id := 0 }
        "abc123 http://localhost:4123/cb").calls =
      [("abc123", [SetAuthURLParam "redirect_uri" "http://localhost:4123/cb"])] :=
  ⟨sampleInitialized_reachable, sampleInitialized_initialized,
    (CodeToIDToken_exchange_arguments okEnv sampleInitialized { id := 0 }
      "abc123 http://localhost:4123/cb" sampleInitialized_reachable
      sampleInitialized_initialized).2.1 "abc123" "http://localhost:4123/cb"
      (by decide) (by decide) (by decide) (by decide)⟩

/-- C2: the redirect matcher accepts exactly the strings of the loopback form
(`http://`, `localhost` or `127.0.0.1`, `:`, one or more digits, `/`, non-whitespace
characters); so every option an initialized adapter passes to the exchange is a
`redirect_uri` of that form, an input whose part after a space is not of that form
(https, another host, no port, no `/` after the port) is exchanged whole with no
option, and so is `abc123 https://evil.example/cb`. -/
theorem redirect_override_is_loopback :
    (∀ s : String, validRedirectURIPattern.MatchString s = true ↔ LoopbackHTTPURI s) ∧
    (∀ (env : Env) (app : OpenIDC) (ctx : Context) (code c : String)
        (opt : List AuthCodeOption), Reachable app → Initialized app →
        (c, opt) ∈ exchanges (CodeToIDToken env app ctx code).calls →
        ∀ o ∈ opt, o.key = "redirect_uri" ∧ LoopbackHTTPURI o.value) ∧
    (∀ (env : Env) (app : OpenIDC) (ctx : Context) (a b : String),
        Reachable app → Initialized app → ¬ LoopbackHTTPURI b →
        exchanges (CodeToIDToken env app ctx (a ++ " " ++ b)).calls = [(a ++ " " ++ b, [])]) ∧
    (¬ LoopbackHTTPURI "https://localhost:4123/cb" ∧ ¬ LoopbackHTTPURI "http://evil.example:4123/cb" ∧
      ¬ LoopbackHTTPURI "http://localhost/cb" ∧ ¬ LoopbackHTTPURI "http://localhost:4123") ∧
    (∀ (env : Env) (app : OpenIDC) (ctx : Context), Reachable app → Initialized app →
        exchanges (CodeToIDToken env app ctx "abc123 https://evil.example/cb").calls =
          [("abc123 https://evil.example/cb", [])]) := by
  have hwhole : ∀ (env : Env) (app : OpenIDC) (ctx : Context) (a b : String),
      Reachable app → Initialized app → ¬ LoopbackHTTPURI b →
      exchanges (CodeToIDToken env app ctx (a ++ " " ++ b)).calls = [(a ++ " " ++ b, [])] := by
    intro env app ctx a b hr hi hb
    rw [exchanges_CodeToIDToken env app ctx _ hr hi]
    rcases exchangeArgs_cases validRedirectURIPattern (a ++ " " ++ b) with
      h | ⟨x, y, h1, h2, h3, h4, _⟩
    · rw [h]
    · exfalso
      have hsx := Split_of_parts x y ' ' h2 h3
      rw [singleton_space, ← h1] at hsx
      have hlen : (Split (a ++ " " ++ b) ' ').length = 2 := by rw [hsx]; rfl
      have hcount : Count (a ++ " " ++ b).data ' ' = 1 := by
        rw [Split_length] at hlen
        omega
      have hd : (a ++ " " ++ b).data = a.data ++ ' ' :: b.data := by
        simp [String.data_append]
      rw [hd, Count_append] at hcount
      simp only [Count, if_true] at hcount
      have ha0 : ' ' ∉ a.data := Count_eq_zero.mp (by omega)
      have hb0 : ' ' ∉ b.data := Count_eq_zero.mp (by omega)
      have hsa := Split_of_parts a b ' ' ha0 hb0
      rw [singleton_space, hsx] at hsa
      simp only [List.cons.injEq, and_true] at hsa
      rw [hsa.2] at h4
      exact hb ((MatchString_iff b).mp h4)
  refine ⟨MatchString_iff, ?_, hwhole, ?_, ?_⟩
  · intro env app ctx code c opt hr hi hmem o ho
    rw [exchanges_CodeToIDToken env app ctx code hr hi] at hmem
    have hargs := List.mem_singleton.mp hmem
    rcases exchangeArgs_cases validRedirectURIPattern code with h | ⟨a, b, _, _, _, h4, h5⟩
    · rw [h] at hargs
      have : opt = [] := (Prod.mk.inj hargs).2
      rw [this] at ho
      cases ho
    · rw [h5] at hargs
      have : opt = [SetAuthURLParam "redirect_uri" b] := (Prod.mk.inj hargs).2
      rw [this] at ho
      have ho2 := List.mem_singleton.mp ho
      rw [ho2]
      exact ⟨rfl, (MatchString_iff b).mp h4⟩
  · refine ⟨?_, ?_, ?_, ?_⟩ <;> rw [← MatchString_iff] <;> decide
  · intro env app ctx hr hi
    exact hwhole env app ctx "abc123" "https://evil.example/cb" hr hi
      (by rw [← MatchString_iff]; decide)

/-- C2, at an input with a loopback second part: the option passed for
`abc123 http://localhost:4123/cb` is a `redirect_uri` of the loopback form. -/
theorem redirect_override_is_loopback_witness :
    (SetAuthURLParam "redirect_uri" "http://localhost:4123/cb").key = "redirect_uri" ∧
    LoopbackHTTPURI (SetAuthURLParam "redirect_uri" "http://localhost:4123/cb").value :=
  redirect_override_is_loopback.2.1 okEnv sampleInitialized { id := 0 }
    "abc123 http://localhost:4123/cb" "abc123"
    [SetAuthURLParam "redirect_uri" "http://localhost:4123/cb"]
    sampleInitialized_reachable sampleInitialized_initialized (by decide)
    (SetAuthURLParam "redirect_uri" "http://localhost:4123/cb") (List.mem_singleton.mpr rfl)

/-- C10: the split loses nothing. On an initialized adapter, an exchange call with an
override has the passed code, one space and the override equal to the input, with no
space in either part; an exchange call without override has the input as code. The
passed code can be empty: ` http://localhost:1/` is exchanged as the empty code. -/
theorem CodeToIDToken_split_lossless :
    (∀ (env : Env) (app : OpenIDC) (ctx : Context) (code c : String)
        (opt : List AuthCodeOption), Reachable app → Initialized app →
        (c, opt) ∈ exchanges (CodeToIDToken env app ctx code).calls →
        (opt = [] ∧ c = code) ∨
        (∃ u : String, opt = [SetAuthURLParam "redirect_uri" u] ∧ c ++ " " ++ u = code ∧
          ' ' ∉ c.data ∧ ' ' ∉ u.data)) ∧
    exchanges (CodeToIDToken okEnv sampleInitialized { id := 0 } " http://localhost:1/").calls =
      [("", [SetAuthURLParam "redirect_uri" "http://localhost:1/"])] := by
  refine ⟨?_, by decide⟩
  intro env app ctx code c opt hr hi hmem
  rw [exchanges_CodeToIDToken env app ctx code hr hi] at hmem
  have hargs := List.mem_singleton.mp hmem
  rcases exchangeArgs_cases validRedirectURIPattern code with h | ⟨a, b, h1, h2, h3, _, h5⟩
  · rw [h] at hargs
    exact Or.inl ⟨(Prod.mk.inj hargs).2, (Prod.mk.inj hargs).1⟩
  · rw [h5] at hargs
    obtain ⟨hc, ho⟩ := Prod.mk.inj hargs
    right
    refine ⟨b, ho, ?_, ?_, h3⟩
    · rw [hc, h1]
    · rw [hc]
      exact h2

/-- C10, at the input of the specification: the parts of
`abc123 http://localhost:4123/cb` rebuild it. -/
theorem CodeToIDToken_split_lossless_witness :
    ([SetAuthURLParam "redirect_uri" "http://localhost:4123/cb"] = [] ∧
        "abc123" = "abc123 http://localhost:4123/cb") ∨
    (∃ u : String, [SetAuthURLParam "redirect_uri" "http://localhost:4123/cb"] =
          [SetAuthURLParam "redirect_uri" u] ∧
        "abc123" ++ " " ++ u = "abc123 http://localhost:4123/cb" ∧
        ' ' ∉ "abc123".data ∧ ' ' ∉ u.data) :=
  CodeToIDToken_split_lossless.1 okEnv sampleInitialized { id := 0 }
    "abc123 http://localhost:4123/cb" "abc123"
    [SetAuthURLParam "redirect_uri" "http://localhost:4123/cb"]
    sampleInitialized_reachable sampleInitialized_initialized (by decide)


/-- What the code does when the token response has no string `id_token`: it returns
neither a token nor an error, and the verifier is not invoked. -/
theorem CodeToIDToken_without_id_token (env : Env) (app : OpenIDC) (ctx : Context)
    (code : String) (hr : Reachable app) (hi : Initialized app) (cfg : OAuth2Config)
    (ctx2 : Context) (c : String) (opt : List AuthCodeOption) (tok : Token)
    (hmem : Call.exchange cfg ctx2 c opt ∈ (CodeToIDToken env app ctx code).calls)
    (hex : env.Exchange cfg ctx2 c opt = Except.ok tok)
    (hno : ∀ raw, tok.Extra "id_token" ≠ Iface.str raw) :
    (CodeToIDToken env app ctx code).outcome = Outcome.returned (none, none) ∧
    verifications (CodeToIDToken env app ctx code).calls = [] := by
  obtain ⟨cfg0, v, hc, hv, hre⟩ := hr.fields hi
  rw [CodeToIDToken_eq env app ctx code cfg0 v _ hc hv hre] at hmem ⊢
  cases hE : env.Exchange cfg0 ctx (exchangeArgs validRedirectURIPattern code).1
      (exchangeArgs validRedirectURIPattern code).2 with
  | error err =>
    rw [hE] at hmem
    simp only [List.mem_singleton, Call.exchange.injEq] at hmem
    obtain ⟨rfl, rfl, rfl, rfl⟩ := hmem
    rw [hE] at hex
    cases hex
  | ok tok0 =>
    rw [hE] at hmem
    simp only [] at hmem ⊢
    cases hX : tok0.Extra "id_token" with
    | str raw =>
      exfalso
      rw [hX] at hmem
      simp only [] at hmem
      have hmem2 : Call.exchange cfg ctx2 c opt =
          Call.exchange cfg0 ctx (exchangeArgs validRedirectURIPattern code).1
            (exchangeArgs validRedirectURIPattern code).2 := by
        cases hV : env.Verify v ctx raw <;> rw [hV] at hmem <;>
          simpa using hmem
      simp only [Call.exchange.injEq] at hmem2
      obtain ⟨rfl, rfl, rfl, rfl⟩ := hmem2
      rw [hE] at hex
      cases hex
      exact hno raw hX
    | nil => exact ⟨rfl, rfl⟩
    | num n => exact ⟨rfl, rfl⟩
    | bool b => exact ⟨rfl, rfl⟩

/-- C3: at an initialized adapter whose exchange succeeds with a token response
lacking `id_token`, `CodeToIDToken` returns a nil token together with a nil error:
source line 83 returns the error of the exchange, which is nil there. -/
theorem CodeToIDToken_missing_id_token_returns_nil_error :
    Reachable sampleInitialized ∧ Initialized sampleInitialized ∧
    exchanges (CodeToIDToken noIDTokenEnv sampleInitialized { id := 0 } "abc123").calls =
      [("abc123", [])] ∧
    (∀ cfg : OAuth2Config, noIDTokenEnv.Exchange cfg { id := 0 } "abc123" [] =
      Except.ok tokenWithoutIDToken) ∧
    tokenWithoutIDToken.Extra "id_token" = Iface.nil ∧
    (CodeToIDToken noIDTokenEnv sampleInitialized { id := 0 } "abc123").outcome =
      Outcome.returned (none, none) :=
  ⟨sampleInitialized_reachable, sampleInitialized_initialized, by decide, fun _ => rfl,
    by decide, by decide⟩

/-- C4: with an empty issuer `Init` returns the error `issuer is missing`, with a
non-empty issuer and an empty client identifier the error `client_id is missing`, in
both cases without any library call (no provider discovery). -/
theorem Init_config_error (env : Env) (app : OpenIDC) (ctx : Context) :
    (app.Issuer = "" →
      (Init env app ctx).err = some { msg := "issuer is missing" } ∧
      (Init env app ctx).calls = []) ∧
    (app.Issuer ≠ "" → app.ClientID = "" →
      (Init env app ctx).err = some { msg := "client_id is missing" } ∧
      (Init env app ctx).calls = []) := by
  constructor
  · intro h
    rw [Init_issuer_missing env app ctx h]
    exact ⟨rfl, rfl⟩
  · intro h h2
    rw [Init_client_id_missing env app ctx h h2]
    exact ⟨rfl, rfl⟩

/-- C4, on sample adapters: one without issuer and client identifier (the issuer is
reported), and one without client identifier only. -/
theorem Init_config_error_witness :
    ((Init okEnv { sampleApp with Issuer := "", ClientID := "" } { id := 0 }).err =
        some { msg := "issuer is missing" } ∧
      (Init okEnv { sampleApp with Issuer := "", ClientID := "" } { id := 0 }).calls = []) ∧
    ((Init okEnv { sampleApp with ClientID := "" } { id := 0 }).err =
        some { msg := "client_id is missing" } ∧
      (Init okEnv { sampleApp with ClientID := "" } { id := 0 }).calls = []) :=
  ⟨(Init_config_error okEnv { sampleApp with Issuer := "", ClientID := "" } { id := 0 }).1 rfl,
    (Init_config_error okEnv { sampleApp with ClientID := "" } { id := 0 }).2 (by decide) rfl⟩

/-- C5: with a non-empty issuer and client identifier and a successful discovery,
`Init` succeeds; afterwards the redirect URL is `urn:ietf:wg:oauth:2.0:oob` if it was
empty and unchanged otherwise, and the scopes are `["openid"]` if they were of length
zero (nil or empty) and unchanged otherwise. -/
theorem Init_applies_defaults (env : Env) (app : OpenIDC) (ctx : Context) (p : Provider)
    (h : app.Issuer ≠ "") (h2 : app.ClientID ≠ "")
    (hp : env.NewProvider ctx app.Issuer = Except.ok p) :
    (Init env app ctx).err = none ∧
    (Init env app ctx).app.RedirectURL =
      (if app.RedirectURL = "" then "urn:ietf:wg:oauth:2.0:oob" else app.RedirectURL) ∧
    (Init env app ctx).app.Scopes =
      (if app.Scopes = none ∨ app.Scopes = some [] then some ["openid"] else app.Scopes) := by
  rw [Init_ok env app ctx p h h2 hp]
  refine ⟨rfl, rfl, ?_⟩
  simp only [defaultedScopes, ScopeOpenID]
  cases hs : app.Scopes with
  | none => simp [len]
  | some xs =>
    cases xs with
    | nil => simp [len]
    | cons x xs => simp [len]

/-- C5, on the sample adapter, whose redirect URL is empty and whose scopes are nil. -/
theorem Init_applies_defaults_witness :
    (Init okEnv sampleApp { id := 0 }).err = none ∧
    (Init okEnv sampleApp { id := 0 }).app.RedirectURL = "urn:ietf:wg:oauth:2.0:oob" ∧
    (Init okEnv sampleApp { id := 0 }).app.Scopes = some ["openid"] :=
  Init_applies_defaults okEnv sampleApp { id := 0 } sampleProvider (by decide) (by decide) rfl


theorem defaultedRedirectURL_ne (app : OpenIDC) : defaultedRedirectURL app ≠ "" := by
  unfold defaultedRedirectURL
  by_cases h : app.RedirectURL = ""
  · rw [if_pos h]
    decide
  · rw [if_neg h]
    exact h

theorem defaultedScopes_len (app : OpenIDC) : len (defaultedScopes app) > 0 := by
  unfold defaultedScopes
  by_cases h : len app.Scopes = 0
  · rw [if_pos h]
    decide
  · rw [if_neg h]
    omega

/-- A successful `Init` is one that passed the configuration checks and discovery. -/
theorem Init_success (env : Env) (app : OpenIDC) (ctx : Context)
    (h : (Init env app ctx).err = none) :
    ∃ p, app.Issuer ≠ "" ∧ app.ClientID ≠ "" ∧ env.NewProvider ctx app.Issuer = Except.ok p := by
  by_cases hi : app.Issuer = ""
  · rw [Init_issuer_missing env app ctx hi] at h
    cases h
  by_cases hc : app.ClientID = ""
  · rw [Init_client_id_missing env app ctx hi hc] at h
    cases h
  cases hp : env.NewProvider ctx app.Issuer with
  | error err =>
    rw [Init_discovery_error env app ctx err hi hc hp] at h
    cases h
  | ok p => exact ⟨p, hi, hc, rfl⟩

/-- C6: after a successful `Init`, discovery has returned a provider `p`; the stored
OAuth2 configuration has the adapter's client identifier, secret, redirect URL and
scopes (as they are after defaulting) and the endpoint of `p`; the stored verifier is
the verifier of `p` for the adapter's client identifier; `AuthCodeURL(state)` returns
the authorization URL of the OAuth2 library for that configuration and state, which
is the endpoint followed by the encoded query values, and for state `xyz` these
values include the state, the client identifier, the scopes and the redirect URI. -/
theorem Init_stores_configuration (env : Env) (app : OpenIDC) (ctx : Context)
    (h : (Init env app ctx).err = none) :
    ∃ (p : Provider) (cfg : OAuth2Config),
      env.NewProvider ctx app.Issuer = Except.ok p ∧
      (Init env app ctx).app.oauth2 = some cfg ∧
      cfg.ClientID = (Init env app ctx).app.ClientID ∧
      cfg.ClientSecret = (Init env app ctx).app.ClientSecret ∧
      cfg.RedirectURL = (Init env app ctx).app.RedirectURL ∧
      cfg.Scopes = (Init env app ctx).app.Scopes ∧
      cfg.Endpoint = p.Endpoint ∧
      (Init env app ctx).app.verifier =
        some (p.Verifier { ClientID := (Init env app ctx).app.ClientID }) ∧
      (∀ (env2 : Env) (state : String),
        AuthCodeURL env2 (Init env app ctx).app state =
          Outcome.returned (cfg.AuthCodeURL env2 state)) ∧
      (∀ env2 : Env, cfg.AuthCodeURL env2 "xyz" =
        p.Endpoint.AuthURL ++ (if '?' ∈ p.Endpoint.AuthURL.data then "&" else "?") ++
          env2.Encode (cfg.AuthCodeValues "xyz")) ∧
      ("state", "xyz") ∈ cfg.AuthCodeValues "xyz" ∧
      ("client_id", (Init env app ctx).app.ClientID) ∈ cfg.AuthCodeValues "xyz" ∧
      ("scope", Join (((Init env app ctx).app.Scopes).getD []) " ") ∈ cfg.AuthCodeValues "xyz" ∧
      ("redirect_uri", (Init env app ctx).app.RedirectURL) ∈ cfg.AuthCodeValues "xyz" := by
  obtain ⟨p, hi, hc, hp⟩ := Init_success env app ctx h
  rw [Init_ok env app ctx p hi hc hp]
  refine ⟨p, _, hp, rfl, rfl, rfl, rfl, rfl, rfl, rfl, fun _ _ => rfl, fun _ => rfl, ?_, ?_, ?_, ?_⟩
  · simp [OAuth2Config.AuthCodeValues]
  · simp [OAuth2Config.AuthCodeValues]
  · have := defaultedScopes_len app
    simp [OAuth2Config.AuthCodeValues, this]
  · have := defaultedRedirectURL_ne app
    simp [OAuth2Config.AuthCodeValues, this]

/-- C6, on the sample adapter: `AuthCodeURL("xyz")` after `Init`, with query values
joined by `&` as encoding. -/
theorem Init_stores_configuration_witness :
    (Init okEnv sampleApp { id := 0 }).err = none ∧
    AuthCodeURL okEnv (Init okEnv sampleApp { id := 0 }).app "xyz" =
      Outcome.returned ("https://idp.example/auth?response_type=code&client_id=client" ++
        "&redirect_uri=urn:ietf:wg:oauth:2.0:oob&scope=openid&state=xyz") := by
  obtain ⟨p, cfg, _, hcfg, _, _, _, _, _, _, hurl, _⟩ :=
    Init_stores_configuration okEnv sampleApp { id := 0 } rfl
  have e : some cfg = some sampleConfig := hcfg.symm.trans (by decide)
  injection e with e
  subst e
  refine ⟨rfl, ?_⟩
  rw [hurl okEnv "xyz"]
  decide

/-- C7: on an initialized adapter, when the exchange call returns an error,
`CodeToIDToken` returns no token and that error, and makes no verifier call; when the
verifier call returns an error, it returns no token and that error. `Init` likewise
returns the error of a failed discovery. -/
theorem CodeToIDToken_propagates_errors (env : Env) (app : OpenIDC) (ctx : Context)
    (code : String) (hr : Reachable app) (hi : Initialized app) :
    (∀ (cfg : OAuth2Config) (ctx2 : Context) (c : String) (opt : List AuthCodeOption)
        (err : GoError),
        Call.exchange cfg ctx2 c opt ∈ (CodeToIDToken env app ctx code).calls →
        env.Exchange cfg ctx2 c opt = Except.error err →
        (CodeToIDToken env app ctx code).outcome = Outcome.returned (none, some err) ∧
        verifications (CodeToIDToken env app ctx code).calls = []) ∧
    (∀ (v : IDTokenVerifier) (ctx2 : Context) (raw : String) (err : GoError),
        Call.verify v ctx2 raw ∈ (CodeToIDToken env app ctx code).calls →
        env.Verify v ctx2 raw = Except.error err →
        (CodeToIDToken env app ctx code).outcome = Outcome.returned (none, some err)) ∧
    (∀ (env2 : Env) (app2 : OpenIDC) (err : GoError), app2.Issuer ≠ "" → app2.ClientID ≠ "" →
        env2.NewProvider ctx app2.Issuer = Except.error err →
        (Init env2 app2 ctx).err = some err) := by
  obtain ⟨cfg0, v0, hc, hv, hre⟩ := hr.fields hi
  rw [CodeToIDToken_eq env app ctx code cfg0 v0 _ hc hv hre]
  refine ⟨?_, ?_, ?_⟩
  · intro cfg ctx2 c opt err hmem hex
    cases hE : env.Exchange cfg0 ctx (exchangeArgs validRedirectURIPattern code).1
        (exchangeArgs validRedirectURIPattern code).2 with
    | error err0 =>
      rw [hE] at hmem
      simp only [List.mem_singleton, Call.exchange.injEq] at hmem
      obtain ⟨rfl, rfl, rfl, rfl⟩ := hmem
      rw [hE] at hex
      cases hex
      exact ⟨rfl, rfl⟩
    | ok tok0 =>
      exfalso
      rw [hE] at hmem
      have hmem2 : Call.exchange cfg ctx2 c opt =
          Call.exchange cfg0 ctx (exchangeArgs validRedirectURIPattern code).1
            (exchangeArgs validRedirectURIPattern code).2 := by
        simp only [] at hmem
        cases hX : tok0.Extra "id_token" <;> rw [hX] at hmem <;> simp only [] at hmem <;>
          try (simpa using hmem)
        cases hV : env.Verify v0 ctx _ <;> rw [hV] at hmem <;> simpa using hmem
      simp only [Call.exchange.injEq] at hmem2
      obtain ⟨rfl, rfl, rfl, rfl⟩ := hmem2
      rw [hE] at hex
      cases hex
  · intro v ctx2 raw err hmem hver
    cases hE : env.Exchange cfg0 ctx (exchangeArgs validRedirectURIPattern code).1
        (exchangeArgs validRedirectURIPattern code).2 with
    | error err0 =>
      rw [hE] at hmem
      simp at hmem
    | ok tok0 =>
      rw [hE] at hmem
      simp only [] at hmem ⊢
      cases hX : tok0.Extra "id_token" <;> rw [hX] at hmem <;> simp only [] at hmem ⊢ <;>
        try (simp at hmem)
      rename_i raw0
      cases hV : env.Verify v0 ctx raw0 with
      | error err0 =>
        rw [hV] at hmem
        simp only [List.mem_cons, List.mem_singleton, Call.verify.injEq, List.not_mem_nil,
          or_false, false_or, reduceCtorEq] at hmem
        obtain ⟨rfl, rfl, rfl⟩ := hmem
        rw [hV] at hver
        cases hver
        rfl
      | ok idToken =>
        exfalso
        rw [hV] at hmem
        simp only [List.mem_cons, List.mem_singleton, Call.verify.injEq, List.not_mem_nil,
          or_false, false_or, reduceCtorEq] at hmem
        obtain ⟨rfl, rfl, rfl⟩ := hmem
        rw [hV] at hver
        cases hver
  · intro env2 app2 err h1 h2 hp
    rw [Init_discovery_error env2 app2 ctx err h1 h2 hp]

/-- C7, on the sample adapter: a rejected exchange and a rejected token. -/
theorem CodeToIDToken_propagates_errors_witness :
    ((CodeToIDToken exchangeFailsEnv sampleInitialized { id := 0 } "abc123").outcome =
        Outcome.returned (none, some { msg := "oauth2: cannot fetch token" }) ∧
      verifications (CodeToIDToken exchangeFailsEnv sampleInitialized { id := 0 } "abc123").calls
        = []) ∧
    (CodeToIDToken verifyFailsEnv sampleInitialized { id := 0 } "abc123").outcome =
      Outcome.returned (none, some { msg := "oidc: expected audience" }) :=
  ⟨(CodeToIDToken_propagates_errors exchangeFailsEnv sampleInitialized { id := 0 } "abc123"
      sampleInitialized_reachable sampleInitialized_initialized).1
      sampleConfig { id := 0 } "abc123" []
      { msg := "oauth2: cannot fetch token" } (by decide) rfl,
    (CodeToIDToken_propagates_errors verifyFailsEnv sampleInitialized { id := 0 } "abc123"
      sampleInitialized_reachable sampleInitialized_initialized).2.1
      (sampleProvider.Verifier { ClientID := "client" }) { id := 0 } "raw.jwt.sig"
      { msg := "oidc: expected audience" } (by decide) rfl⟩


/-- C8: on an initialized adapter with stored configuration `cfg` and verifier `v`,
whose exchange call has code `c` and options `opt`: `CodeToIDToken` returns a token
`t` if and only if the exchange succeeds, the response has a string `id_token`, and
the verifier returns `t` for that raw token; a returned token comes with a nil error;
and when the verifier rejects the raw token, the result is no token and the error of
the verifier. -/
theorem CodeToIDToken_returns_token_iff (env : Env) (app : OpenIDC) (ctx : Context)
    (code : String) (hr : Reachable app) (hi : Initialized app) :
    ∃ (cfg : OAuth2Config) (v : IDTokenVerifier) (c : String) (opt : List AuthCodeOption),
      app.oauth2 = some cfg ∧ app.verifier = some v ∧
      exchanges (CodeToIDToken env app ctx code).calls = [(c, opt)] ∧
      (∀ idToken : IDToken,
        (∃ e, (CodeToIDToken env app ctx code).outcome = Outcome.returned (some idToken, e)) ↔
        (∃ tok raw, env.Exchange cfg ctx c opt = Except.ok tok ∧
          tok.Extra "id_token" = Iface.str raw ∧ env.Verify v ctx raw = Except.ok idToken)) ∧
      (∀ (idToken : IDToken) (e : Option GoError),
        (CodeToIDToken env app ctx code).outcome = Outcome.returned (some idToken, e) →
        e = none) ∧
      (∀ (tok : Token) (raw : String) (err : GoError),
        env.Exchange cfg ctx c opt = Except.ok tok → tok.Extra "id_token" = Iface.str raw →
        env.Verify v ctx raw = Except.error err →
        (CodeToIDToken env app ctx code).outcome = Outcome.returned (none, some err)) := by
  obtain ⟨cfg, v, hc, hv, hre⟩ := hr.fields hi
  refine ⟨cfg, v, (exchangeArgs validRedirectURIPattern code).1,
    (exchangeArgs validRedirectURIPattern code).2, hc, hv,
    exchanges_CodeToIDToken env app ctx code hr hi, ?_⟩
  rw [CodeToIDToken_eq env app ctx code cfg v _ hc hv hre]
  cases hE : env.Exchange cfg ctx (exchangeArgs validRedirectURIPattern code).1
      (exchangeArgs validRedirectURIPattern code).2 with
  | error err0 => simp
  | ok tok0 =>
    simp only []
    cases hX : tok0.Extra "id_token" with
    | str raw0 =>
      simp only []
      cases hV : env.Verify v ctx raw0 with
      | error err1 =>
        refine ⟨?_, ?_, ?_⟩
        · intro idToken
          constructor
          · rintro ⟨e, he⟩
            simp at he
          · rintro ⟨tok, raw, h1, h2, h3⟩
            cases h1
            rw [hX] at h2
            cases h2
            rw [hV] at h3
            cases h3
        · intro idToken e he
          simp at he
        · intro tok raw err h1 h2 h3
          cases h1
          rw [hX] at h2
          cases h2
          rw [hV] at h3
          cases h3
          rfl
      | ok t0 =>
        refine ⟨?_, ?_, ?_⟩
        · intro idToken
          constructor
          · rintro ⟨e, he⟩
            simp only [Outcome.returned.injEq, Prod.mk.injEq, Option.some.injEq] at he
            exact ⟨tok0, raw0, rfl, hX, by rw [hV, he.1]⟩
          · rintro ⟨tok, raw, h1, h2, h3⟩
            cases h1
            rw [hX] at h2
            cases h2
            rw [hV] at h3
            cases h3
            exact ⟨none, rfl⟩
        · intro idToken e he
          simp only [Outcome.returned.injEq, Prod.mk.injEq] at he
          exact he.2.symm
        · intro tok raw err h1 h2 h3
          cases h1
          rw [hX] at h2
          cases h2
          rw [hV] at h3
          cases h3
    | nil =>
      refine ⟨?_, ?_, ?_⟩
      · intro idToken
        constructor
        · rintro ⟨e, he⟩
          simp at he
        · rintro ⟨tok, raw, h1, h2, h3⟩
          cases h1
          rw [hX] at h2
          cases h2
      · intro idToken e he
        simp at he
      · intro tok raw err h1 h2 h3
        cases h1
        rw [hX] at h2
        cases h2
    | num n =>
      refine ⟨?_, ?_, ?_⟩
      · intro idToken
        constructor
        · rintro ⟨e, he⟩
          simp at he
        · rintro ⟨tok, raw, h1, h2, h3⟩
          cases h1
          rw [hX] at h2
          cases h2
      · intro idToken e he
        simp at he
      · intro tok raw err h1 h2 h3
        cases h1
        rw [hX] at h2
        cases h2
    | bool b =>
      refine ⟨?_, ?_, ?_⟩
      · intro idToken
        constructor
        · rintro ⟨e, he⟩
          simp at he
        · rintro ⟨tok, raw, h1, h2, h3⟩
          cases h1
          rw [hX] at h2
          cases h2
      · intro idToken e he
        simp at he
      · intro tok raw err h1 h2 h3
        cases h1
        rw [hX] at h2
        cases h2

/-- C8, on the sample adapter with every library call succeeding: the claims of the
verifier are returned. -/
theorem CodeToIDToken_returns_token_iff_witness :
    ∃ e, (CodeToIDToken okEnv sampleInitialized { id := 0 } "abc123").outcome =
      Outcome.returned (some sampleIDToken, e) := by
  obtain ⟨cfg, v, c, opt, _, _, _, hiff, _, _⟩ :=
    CodeToIDToken_returns_token_iff okEnv sampleInitialized { id := 0 } "abc123"
      sampleInitialized_reachable sampleInitialized_initialized
  exact (hiff sampleIDToken).mpr ⟨sampleToken, "raw.jwt.sig", rfl, by decide, rfl⟩

/-- An adapter a client can hold that is not initialized has neither configuration
nor verifier. -/
theorem Reachable.unset {app : OpenIDC} (hr : Reachable app) (hn : ¬ Initialized app) :
    app.oauth2 = none ∧ app.verifier = none := by
  obtain ⟨_, h2, h3⟩ := hr.invariant
  have ho : app.oauth2 = none := by
    cases ho : app.oauth2 with
    | none => rfl
    | some cfg =>
      exfalso
      have h1 : app.oauth2.isSome = true := by rw [ho]; rfl
      exact hn ⟨h1, h2.mp h1, h3 h1⟩
  refine ⟨ho, ?_⟩
  cases hv : app.verifier with
  | none => rfl
  | some v =>
    exfalso
    have h1 : app.verifier.isSome = true := by rw [hv]; rfl
    have := h2.mpr h1
    rw [ho] at this
    cases this

theorem Init_failure_keeps_unset (env : Env) (app : OpenIDC) (ctx : Context)
    (hr : Reachable app) (hn : ¬ Initialized app) (he : (Init env app ctx).err ≠ none) :
    (Init env app ctx).app.oauth2 = none ∧ (Init env app ctx).app.verifier = none := by
  have hu := hr.unset hn
  by_cases hi : app.Issuer = ""
  · rw [Init_issuer_missing env app ctx hi]
    exact hu
  by_cases hc : app.ClientID = ""
  · rw [Init_client_id_missing env app ctx hi hc]
    exact hu
  cases hp : env.NewProvider ctx app.Issuer with
  | error err =>
    rw [Init_discovery_error env app ctx err hi hc hp]
    exact hu
  | ok p =>
    rw [Init_ok env app ctx p hi hc hp] at he
    exact absurd rfl he

theorem Init_keeps_initialized (env : Env) (app : OpenIDC) (ctx : Context)
    (h : Initialized app) : Initialized (Init env app ctx).app := by
  by_cases hi : app.Issuer = ""
  · rw [Init_issuer_missing env app ctx hi]
    exact h
  by_cases hc : app.ClientID = ""
  · rw [Init_client_id_missing env app ctx hi hc]
    exact h
  cases hp : env.NewProvider ctx app.Issuer with
  | error err =>
    rw [Init_discovery_error env app ctx err hi hc hp]
    exact ⟨h.1, h.2.1, rfl⟩
  | ok p =>
    rw [Init_ok env app ctx p hi hc hp]
    exact ⟨rfl, rfl, rfl⟩

/-- C9: with Initialized meaning that configuration, verifier and matcher are all
set: (i) an `Init` that returns no error leaves the adapter Initialized; (ii) an
`Init` that returns an error on an adapter that is not Initialized leaves
configuration and verifier unset; (iii) no operation takes an Initialized adapter
out of Initialized; and an adapter that is not Initialized becomes Initialized only
by an `Init` that returns no error. Adapters in (ii) and the last part are those a
client of the package can hold. -/
theorem Init_state_machine :
    (∀ (env : Env) (app : OpenIDC) (ctx : Context),
      (Init env app ctx).err = none → Initialized (Init env app ctx).app) ∧
    (∀ (env : Env) (app : OpenIDC) (ctx : Context), Reachable app → ¬ Initialized app →
      (Init env app ctx).err ≠ none →
      (Init env app ctx).app.oauth2 = none ∧ (Init env app ctx).app.verifier = none) ∧
    (∀ (app : OpenIDC) (op : Op), Initialized app → Initialized (op.post app)) ∧
    (∀ (app : OpenIDC) (op : Op), Reachable app → ¬ Initialized app →
      Initialized (op.post app) →
      ∃ env ctx, op = Op.init env ctx ∧ (Init env app ctx).err = none) := by
  refine ⟨?_, Init_failure_keeps_unset, ?_, ?_⟩
  · intro env app ctx h
    obtain ⟨p, hi, hc, hp⟩ := Init_success env app ctx h
    rw [Init_ok env app ctx p hi hc hp]
    exact ⟨rfl, rfl, rfl⟩
  · intro app op h
    cases op with
    | init env ctx => exact Init_keeps_initialized env app ctx h
    | authCodeURL env state => exact h
    | codeToIDToken env ctx code => exact h
  · intro app op hr hn hpost
    cases op with
    | init env ctx =>
      refine ⟨env, ctx, rfl, ?_⟩
      by_contra he
      have := Init_failure_keeps_unset env app ctx hr hn he
      have h1 := hpost.1
      simp only [Op.post] at h1
      rw [this.1] at h1
      cases h1
    | authCodeURL env state => exact absurd hpost hn
    | codeToIDToken env ctx code => exact absurd hpost hn

/-- C9, on the sample adapter: a failed discovery on the fresh adapter leaves
configuration and verifier unset, and a failed discovery on the initialized adapter
leaves it Initialized. -/
theorem Init_state_machine_witness :
    ((Init discoveryFailsEnv sampleApp { id := 0 }).app.oauth2 = none ∧
      (Init discoveryFailsEnv sampleApp { id := 0 }).app.verifier = none) ∧
    Initialized ((Op.init discoveryFailsEnv { id := 0 }).post sampleInitialized) :=
  ⟨Init_state_machine.2.1 discoveryFailsEnv sampleApp { id := 0 }
      (Reachable.literal "https://idp.example" "client" "" "" none)
      (fun h => Bool.noConfusion h.1) (by decide),
    Init_state_machine.2.2.1 sampleInitialized (Op.init discoveryFailsEnv { id := 0 })
      sampleInitialized_initialized⟩


end Util
